import Mathlib

/-!
Verification of the log_tuner template-extraction / regeneration engine.

The Python source (log_tuner.py, Python 2) is shallowly embedded here:
strings are Lean `String`s (lists of characters), Python integers are `Nat`,
`random.randint` draws are explicit `Nat` arguments or streams `Nat → Nat`,
Python exceptions are `Except String`, and `datetime` cursors are absolute
milliseconds (`Nat`) with the `strftime` rendering kept as an explicit
`render : Nat → String` parameter (the rendering itself is a stdlib call
whose output format the claims do not depend on).

The left-to-right scans (`str.replace`, `re.findall`) recurse on an explicit
`fuel` argument so that every definition is structurally recursive and
evaluates inside the kernel; each scan step consumes at least one character,
so `fuel = s.length` (supplied by the wrappers) is always sufficient and the
fuel-exhausted branches are never reached on the wrappers' calls.
-/

/-- The characters Python `str.strip()` removes (`\t\n\x0b\x0c\r` and space). -/
def pySpace (c : Char) : Bool :=
  c == ' ' || c == '\t' || c == '\n' || c == '\r' || c == Char.ofNat 11 || c == Char.ofNat 12

/-- `not line.strip()` in Python: the line is empty or whitespace-only. -/
def pyBlank (s : String) : Bool :=
  s.data.all pySpace

/-- Python `s.replace(old, new, count)` on the character list `s`:
scan left to right, replace the leftmost occurrence of `old`, continue after
the inserted `new`, at most `count` replacements.  (Python's special
behaviour for `old = ""` is never exercised by the program: every literal
passed to `replace` is non-empty.) -/
def pyReplaceCore (old new : List Char) : Nat → List Char → Nat → List Char
  | _, [], _ => []
  | _, s, 0 => s
  | 0, s, _ => s
  | fuel + 1, c :: cs, k + 1 =>
    if 0 < old.length ∧ old.isPrefixOf (c :: cs) then
      new ++ pyReplaceCore old new fuel ((c :: cs).drop old.length) k
    else
      c :: pyReplaceCore old new fuel cs (k + 1)

/-- Python `s.replace(old, new, count)` on `String`s. -/
def pyReplace (s old new : String) (count : Nat) : String :=
  ⟨pyReplaceCore old.data new.data s.data.length s.data count⟩

/-- Python `s.replace(old, new)` (no count: replace every occurrence).
`s.length` bounds the possible number of replacements since each one
consumes at least one character of `s`. -/
def pyReplaceAll (s old new : String) : String :=
  ⟨pyReplaceCore old.data new.data s.data.length s.data s.data.length⟩

/-- The same scan as `pyReplaceCore`, additionally counting how many
replacements were performed. -/
def pyReplaceNCore (old new : List Char) : Nat → List Char → Nat → List Char × Nat
  | _, [], _ => ([], 0)
  | _, s, 0 => (s, 0)
  | 0, s, _ => (s, 0)
  | fuel + 1, c :: cs, k + 1 =>
    if 0 < old.length ∧ old.isPrefixOf (c :: cs) then
      let r := pyReplaceNCore old new fuel ((c :: cs).drop old.length) k
      (new ++ r.1, r.2 + 1)
    else
      let r := pyReplaceNCore old new fuel cs (k + 1)
      (c :: r.1, r.2)

/-- Number of (non-overlapping, leftmost-first) occurrences of `old` in `s`,
following the same scan as Python `str.replace`. -/
def occCountCore (old : List Char) : Nat → List Char → Nat
  | _, [] => 0
  | 0, _ => 0
  | fuel + 1, c :: cs =>
    if 0 < old.length ∧ old.isPrefixOf (c :: cs) then
      occCountCore old fuel ((c :: cs).drop old.length) + 1
    else
      occCountCore old fuel cs

/-- Occurrences of `old` in the string `s` (leftmost, non-overlapping). -/
def occCount (s old : String) : Nat :=
  occCountCore old.data s.data.length s.data

/-- Occurrence-indexed replacement: the same scan as `pyReplaceCore`, but the
`r`-th replacement performed inserts `stream (j + r)`.  With a constant
stream this coincides with `pyReplaceCore`; with a non-constant stream it
expresses "an independently generated value per occurrence". -/
def streamReplaceCore (old : List Char) (stream : Nat → List Char) : Nat → List Char → Nat → Nat → List Char
  | _, [], _, _ => []
  | _, s, _, 0 => s
  | 0, s, _, _ => s
  | fuel + 1, c :: cs, j, k + 1 =>
    if 0 < old.length ∧ old.isPrefixOf (c :: cs) then
      stream j ++ streamReplaceCore old stream fuel ((c :: cs).drop old.length) (j + 1) k
    else
      c :: streamReplaceCore old stream fuel cs j (k + 1)

/-- `streamReplaceCore` on `String`s, replacing every occurrence. -/
def streamReplaceAll (s old : String) (stream : Nat → String) : String :=
  ⟨streamReplaceCore old.data (fun k => (stream k).data) s.data.length s.data 0 s.data.length⟩

/-- `streamReplaceCore` on `String`s, replacing at most `count` occurrences. -/
def streamReplace (s old : String) (stream : Nat → String) (count : Nat) : String :=
  ⟨streamReplaceCore old.data (fun k => (stream k).data) s.data.length s.data 0 count⟩

/-- `random.choice` on a list, with the uniformly random pick modelled by an
index draw `i` (Python raises on an empty list; the program only reaches
`choice` with a non-empty pool). -/
def pyChoice (l : List String) (i : Nat) : String :=
  l.getD (i % l.length) ""

/-! ## Regular-expression matchers

Each Python regex used by the program is embedded as a matcher
`List Char → Option Nat` giving the length of the (unique, greedy) match
starting at the given position, or `none`.  None of the patterns can match
the empty string, and none requires backtracking: a maximal digit/hex run
followed by a required literal is exactly Python's greedy behaviour here,
because shortening the run only moves a digit in front of the literal. -/

/-- Length of the maximal leading run of `[0-9]`. -/
def digitRun : List Char → Nat
  | [] => 0
  | c :: cs => if c.isDigit then digitRun cs + 1 else 0

/-- Consume exactly `n` `[0-9]` characters. -/
def expectDigits : Nat → List Char → Option (List Char)
  | 0, s => some s
  | _ + 1, [] => none
  | n + 1, c :: cs => if c.isDigit then expectDigits n cs else none

/-- Consume exactly the character `c`. -/
def expectChar (c : Char) : List Char → Option (List Char)
  | [] => none
  | x :: r => if x == c then some r else none

/-- `[0-9a-fA-F]` (the MAC regex is compiled with `re.IGNORECASE`). -/
def isHexChar (c : Char) : Bool :=
  c.isDigit || (c ≥ 'a' && c ≤ 'f') || (c ≥ 'A' && c ≤ 'F')

/-- Consume exactly two hex characters. -/
def expectHex2 : List Char → Option (List Char)
  | a :: b :: r => if isHexChar a && isHexChar b then some r else none
  | _ => none

/-- `(?:\.[0-9]+){g}`: `g` groups of a dot followed by a nonempty digit run;
returns the total number of characters consumed. -/
def dotDigitGroups : Nat → List Char → Option Nat
  | 0, _ => some 0
  | g + 1, '.' :: cs =>
    let d := digitRun cs
    if d = 0 then none
    else
      match dotDigitGroups g (cs.drop d) with
      | some n => some (1 + d + n)
      | none => none
  | _ + 1, _ => none

/-- Matcher for `[0-9]+(?:\.[0-9]+){3}` (the IP-address pattern of
`LogTuner._stub_ip_addresses`). -/
def matchIpLen (s : List Char) : Option Nat :=
  let d := digitRun s
  if d = 0 then none
  else
    match dotDigitGroups 3 (s.drop d) with
    | some n => some (d + n)
    | none => none

/-- Matcher for `\d+ additional times in the last \d+ second`
(`IgkExtremeLogTuner._stub_miscellaneous`). -/
def matchLastSecondsLen (s : List Char) : Option Nat :=
  let d1 := digitRun s
  if d1 = 0 then none
  else
    let lit1 := " additional times in the last ".data
    let s1 := s.drop d1
    if lit1.isPrefixOf s1 then
      let s2 := s1.drop lit1.length
      let d2 := digitRun s2
      if d2 = 0 then none
      else
        let lit2 := " second".data
        if lit2.isPrefixOf (s2.drop d2) then some (d1 + lit1.length + d2 + lit2.length)
        else none
    else none

/-- Matcher for `\d{2}:\d{2}:\d{2}\.\d{3}`
(`CiscoWlcLogTuner._stub_date_and_time`); a match always has length 12. -/
def matchTimeLen (s : List Char) : Option Nat :=
  ((((((expectDigits 2 s).bind (expectChar ':')).bind (expectDigits 2)).bind
      (expectChar ':')).bind (expectDigits 2)).bind (expectChar '.')).bind
        (expectDigits 3) |>.map (fun _ => 12)

/-- `(?::[0-9a-f]{2}){g}` with `re.IGNORECASE`. -/
def colonHexPairs : Nat → List Char → Option (List Char)
  | 0, s => some s
  | g + 1, ':' :: cs =>
    match expectHex2 cs with
    | some r => colonHexPairs g r
    | none => none
  | _ + 1, _ => none

/-- Matcher for `([0-9a-f]{2}(?::[0-9a-f]{2}){5})`, `re.IGNORECASE`
(`CiscoWlcLogTuner._stub_miscellaneous`); a match always has length 17. -/
def matchMacLen (s : List Char) : Option Nat :=
  match expectHex2 s with
  | some r =>
    match colonHexPairs 5 r with
    | some _ => some 17
    | none => none
  | none => none

/-- Matcher for `Vlan\d+` (`CiscoIosLogTuner._stub_miscellaneous`). -/
def matchVlanLen (s : List Char) : Option Nat :=
  if ("Vlan".data).isPrefixOf s then
    let d := digitRun (s.drop 4)
    if d = 0 then none else some (4 + d)
  else none

/-- Matcher for `Grp \d+` (`CiscoIosLogTuner._stub_miscellaneous`). -/
def matchGrpLen (s : List Char) : Option Nat :=
  if ("Grp ".data).isPrefixOf s then
    let d := digitRun (s.drop 4)
    if d = 0 then none else some (4 + d)
  else none

/-- `re.findall` for a fixed pattern: scan left to right; at a match, record
it and continue after its end (non-overlapping); otherwise advance one
character.  Our matchers never match the empty string, so the `n = 0` guard
is never taken; `fuel = s.length` (supplied by `reFindall`) is always
sufficient because every step consumes at least one character. -/
def reFindCore (m : List Char → Option Nat) : Nat → List Char → List (List Char)
  | _, [] => []
  | 0, _ => []
  | fuel + 1, c :: cs =>
    match m (c :: cs) with
    | some n =>
      if 0 < n then (c :: cs).take n :: reFindCore m fuel ((c :: cs).drop n)
      else reFindCore m fuel cs
    | none => reFindCore m fuel cs

/-- `re.findall(pattern, line)` as a list of matched strings. -/
def reFindall (m : List Char → Option Nat) (s : String) : List String :=
  (reFindCore m s.data.length s.data).map (fun l => ⟨l⟩)

/-! ## `LogTuner` (base class) -/

def LogTuner.IP_ADDRESS_STUB : String := "<IP_ADDRESS_STUB>"

/-- `LogTuner._stub_ip_addresses`: find all dotted quads, then replace each
found literal (up to 10 textual occurrences per `replace` call). -/
def LogTuner.stub_ip_addresses (line : String) : String :=
  (reFindall matchIpLen line).foldl
    (fun l ip => pyReplace l ip LogTuner.IP_ADDRESS_STUB 10) line

/-- `LogTuner._stub_date_and_time`: base default, identity. -/
def LogTuner.stub_date_and_time (line : String) : String := line

/-- `LogTuner._stub_miscellaneous`: base default, identity. -/
def LogTuner.stub_miscellaneous (line : String) : String := line

/-- Message of a Python 2 `ZeroDivisionError` on `int / int`. -/
def zeroDivMsg : String := "ZeroDivisionError: integer division or modulo by zero"

/-- Message of the `NameError` raised by the base
`LogTuner._replace_miscellaneous_stub`, whose body returns the undefined
name `lines`. -/
def nameErrMsg : String := "NameError: global name lines is not defined"

/-- Python 2 `/` on non-negative ints: floor division, raising
`ZeroDivisionError` on a zero divisor. -/
def pyIntDiv (a b : Nat) : Except String Nat :=
  if b = 0 then .error zeroDivMsg else .ok (a / b)

/-- `LogTuner._calculate_required_number_of_lines`.  `log_lines` are the
sample lines kept on the instance; `sample_file_size` is `os.stat(...).st_size`
(file I/O, supplied as a parameter). -/
def LogTuner.calculate_required_number_of_lines
    (log_lines : List String) (sample_file_size size_mb : Nat) : Except String Nat :=
  let requested_size_b := size_mb * 1024 * 1024
  match pyIntDiv sample_file_size log_lines.length with
  | .error e => .error e
  | .ok avg_line_size => pyIntDiv requested_size_b avg_line_size

/-- `LogTuner._replace_ip_addresses_stub`: the four `random.randint(0, 255)`
draws are `r0 r1 r2 r3`; they are joined with `.` into one address which
replaces up to 10 occurrences of the placeholder. -/
def LogTuner.replace_ip_addresses_stub (r0 r1 r2 r3 : Nat) (line : String) : String :=
  let random_ip := String.intercalate "." [toString r0, toString r1, toString r2, toString r3]
  pyReplace line LogTuner.IP_ADDRESS_STUB random_ip 10

/-- `LogTuner._replace_date_and_time_stub`: base default, identity on the
batch. -/
def LogTuner.replace_date_and_time_stub (lines : List String) : List String := lines

/-- `LogTuner._replace_miscellaneous_stub`: the base default body is
`return lines`, and `lines` is an undefined name, so executing it raises a
`NameError` whatever the arguments are. -/
def LogTuner.replace_miscellaneous_stub (_ : Nat → Nat) (_ : String) : Except String String :=
  .error nameErrMsg

/-! ## Timestamp cursors

Each `_replace_date_and_time_stub` override threads a `datetime` cursor
through the batch, advancing it by `random.randint(0, 100)` milliseconds
before rendering.  The cursor is modelled as absolute milliseconds (`Nat`),
the delta draws as a stream `d : Nat → Nat` (the `n`-th draw made), and
`strftime` as `render : Nat → String`. -/

/-- `partSum d i n = d i + d (i+1) + ⋯ + d (i+n-1)`: the sum of `n`
consecutive delta draws starting with draw `i`. -/
def partSum (d : Nat → Nat) : Nat → Nat → Nat
  | _, 0 => 0
  | i, n + 1 => d i + partSum d (i + 1) n

/-- Number of non-blank lines of a batch. -/
def countNonBlank : List String → Nat
  | [] => 0
  | l :: ls => if pyBlank l then countNonBlank ls else countNonBlank ls + 1

/-- Cursor value after processing lines `0..k` of a batch that advances on
every line (CiscoWlc, CiscoIos), starting from cursor `c` with next draw `i`. -/
def seqCursor (d : Nat → Nat) (c i k : Nat) : Nat :=
  c + partSum d i (k + 1)

/-- Cursor value after processing lines `0..k` of a batch that advances only
on non-blank lines (IgkExtreme). -/
def igkCursor (d : Nat → Nat) (ls : List String) (c i k : Nat) : Nat :=
  c + partSum d i (countNonBlank (ls.take (k + 1)))

/-! ## `IgkExtremeLogTuner` -/

def IgkExtremeLogTuner.LAST_SECONDS_STUB : String :=
  "<times_number> additional times in the last <seconds_number> second"

/-- `IgkExtremeLogTuner._stub_date_and_time`: drop the first 22 characters
(the fixed-width timestamp header); empty lines are returned as-is. -/
def IgkExtremeLogTuner.stub_date_and_time (line : String) : String :=
  if line = "" then line else ⟨line.data.drop 22⟩

/-- `IgkExtremeLogTuner._stub_miscellaneous`. -/
def IgkExtremeLogTuner.stub_miscellaneous (line : String) : String :=
  (reFindall matchLastSecondsLen line).foldl
    (fun l r => pyReplaceAll l r IgkExtremeLogTuner.LAST_SECONDS_STUB) line

/-- Seed `datetime.strptime("05/10/2017 07:25:58.11", "%m/%d/%Y %H:%M:%S.%f")`,
i.e. 07:25:58.110 on 2017-05-10, as milliseconds within its day (the date
part is a constant offset shared by every cursor value and does not affect
any ordering or difference). -/
def igkSeedMs : Nat := ((7 * 60 + 25) * 60 + 58) * 1000 + 110

/-- The loop body of `IgkExtremeLogTuner._replace_date_and_time_stub` with
the cursor state explicit: blank lines (`not line.strip()`) are copied
without touching the cursor; otherwise the cursor advances by the next draw
and its rendering is prepended.  Each output line is paired with the cursor
value after that line. -/
def igkBatch (d : Nat → Nat) (render : Nat → String) : List String → Nat → Nat → List (String × Nat)
  | [], _, _ => []
  | line :: rest, cursor, i =>
    if pyBlank line then
      (line, cursor) :: igkBatch d render rest cursor i
    else
      let cursor2 := cursor + d i
      (render cursor2 ++ line, cursor2) :: igkBatch d render rest cursor2 (i + 1)

/-- `IgkExtremeLogTuner._replace_date_and_time_stub`. -/
def IgkExtremeLogTuner.replace_date_and_time_stub
    (d : Nat → Nat) (render : Nat → String) (lines : List String) : List String :=
  (igkBatch d render lines igkSeedMs 0).map Prod.fst

/-- `IgkExtremeLogTuner._replace_miscellaneous_stub`: `times` is the
`random.randint(1, 300)` draw, `seconds` the `random.randint(1, 100)` draw
(one each per line). -/
def IgkExtremeLogTuner.replace_miscellaneous_stub (times seconds : Nat) (line : String) : String :=
  if line = "" then line
  else
    let last_seconds_stub :=
      pyReplaceAll
        (pyReplaceAll IgkExtremeLogTuner.LAST_SECONDS_STUB "<times_number>" (toString times))
        "<seconds_number>" (toString seconds)
    pyReplaceAll line IgkExtremeLogTuner.LAST_SECONDS_STUB last_seconds_stub

/-! ## `CiscoWlcLogTuner` -/

def CiscoWlcLogTuner.MAC_STUB : String := "<MAC>"

def CiscoWlcLogTuner.DATETIME_STUB : String := "<DATETIME_STUB>"

/-- `"%02x" % n`: lowercase hex, zero-padded to width 2. -/
def hex2 (n : Nat) : String :=
  let ds := Nat.toDigits 16 n
  ⟨if ds.length = 1 then '0' :: ds else ds⟩

/-- `CiscoWlcLogTuner._generate_macs`: the pool of `macs_number` random MAC
addresses built at construction; `g` is the stream of
`random.randint(0, 255)` draws (six per address). -/
def CiscoWlcLogTuner.generate_macs (g : Nat → Nat) (macs_number : Nat) : List String :=
  (List.range macs_number).map (fun i =>
    hex2 (g (6 * i)) ++ ":" ++ hex2 (g (6 * i + 1)) ++ ":" ++ hex2 (g (6 * i + 2)) ++ ":" ++
      hex2 (g (6 * i + 3)) ++ ":" ++ hex2 (g (6 * i + 4)) ++ ":" ++ hex2 (g (6 * i + 5)))

/-- `CiscoWlcLogTuner._stub_date_and_time`. -/
def CiscoWlcLogTuner.stub_date_and_time (line : String) : String :=
  (reFindall matchTimeLen line).foldl
    (fun l t => pyReplaceAll l t CiscoWlcLogTuner.DATETIME_STUB) line

/-- `CiscoWlcLogTuner._stub_miscellaneous`. -/
def CiscoWlcLogTuner.stub_miscellaneous (line : String) : String :=
  (reFindall matchMacLen line).foldl
    (fun l mac => pyReplace l mac CiscoWlcLogTuner.MAC_STUB 10) line

/-- Seed `datetime.strptime("14:14:51.655", "%H:%M:%S.%f")` as milliseconds
within its (default) day. -/
def wlcSeedMs : Nat := ((14 * 60 + 14) * 60 + 51) * 1000 + 655

/-- The loop body of `CiscoWlcLogTuner._replace_date_and_time_stub` with the
cursor state explicit: the cursor advances on every line (blank or not) and
its rendering replaces every `<DATETIME_STUB>` occurrence in the line. -/
def wlcBatch (d : Nat → Nat) (render : Nat → String) : List String → Nat → Nat → List (String × Nat)
  | [], _, _ => []
  | line :: rest, cursor, i =>
    let cursor2 := cursor + d i
    (pyReplaceAll line CiscoWlcLogTuner.DATETIME_STUB (render cursor2), cursor2) ::
      wlcBatch d render rest cursor2 (i + 1)

/-- `CiscoWlcLogTuner._replace_date_and_time_stub`. -/
def CiscoWlcLogTuner.replace_date_and_time_stub
    (d : Nat → Nat) (render : Nat → String) (lines : List String) : List String :=
  (wlcBatch d render lines wlcSeedMs 0).map Prod.fst

/-- `CiscoWlcLogTuner._replace_miscellaneous_stub`: `random.choice` from the
precomputed pool (`choiceDraw` models the random pick), then replace up to
10 `<MAC>` occurrences with the chosen address. -/
def CiscoWlcLogTuner.replace_miscellaneous_stub
    (random_macs : List String) (choiceDraw : Nat) (line : String) : String :=
  let mac := pyChoice random_macs choiceDraw
  pyReplace line CiscoWlcLogTuner.MAC_STUB mac 10

/-! ## `CiscoIosLogTuner` -/

def CiscoIosLogTuner.VLAN_STUB : String := "<vlan>"

def CiscoIosLogTuner.GRP_STUB : String := "<grp>"

/-- `CiscoIosLogTuner._stub_date_and_time`: drop the first 15 characters;
empty lines are returned as-is. -/
def CiscoIosLogTuner.stub_date_and_time (line : String) : String :=
  if line = "" then line else ⟨line.data.drop 15⟩

/-- `CiscoIosLogTuner._stub_miscellaneous`. -/
def CiscoIosLogTuner.stub_miscellaneous (line : String) : String :=
  let line1 :=
    (reFindall matchVlanLen line).foldl
      (fun l r => pyReplaceAll l r CiscoIosLogTuner.VLAN_STUB) line
  (reFindall matchGrpLen line1).foldl
    (fun l r => pyReplaceAll l r CiscoIosLogTuner.GRP_STUB) line1

/-- Seed `datetime.strptime("Feb 11 08:05:11.000", "%b %d %H:%M:%S.%f")` as
milliseconds within its day. -/
def iosSeedMs : Nat := ((8 * 60 + 5) * 60 + 11) * 1000

/-- The loop body of `CiscoIosLogTuner._replace_date_and_time_stub` with the
cursor state explicit: the cursor advances on every line (blank or not) and
its rendering is prepended to the line. -/
def iosBatch (d : Nat → Nat) (render : Nat → String) : List String → Nat → Nat → List (String × Nat)
  | [], _, _ => []
  | line :: rest, cursor, i =>
    let cursor2 := cursor + d i
    (render cursor2 ++ line, cursor2) :: iosBatch d render rest cursor2 (i + 1)

/-- `CiscoIosLogTuner._replace_date_and_time_stub`. -/
def CiscoIosLogTuner.replace_date_and_time_stub
    (d : Nat → Nat) (render : Nat → String) (lines : List String) : List String :=
  (iosBatch d render lines iosSeedMs 0).map Prod.fst

/-- `CiscoIosLogTuner._replace_miscellaneous_stub`: one
`random.randint(1, 5000)` VLAN draw `rv` and one `random.randint(1, 300)`
group draw `rg` per line; each replaces every occurrence of its stub. -/
def CiscoIosLogTuner.replace_miscellaneous_stub (rv rg : Nat) (line : String) : String :=
  let random_vlan := "Vlan" ++ toString rv
  let line1 := pyReplaceAll line CiscoIosLogTuner.VLAN_STUB random_vlan
  let random_grp := "Grp " ++ toString rg
  pyReplaceAll line1 CiscoIosLogTuner.GRP_STUB random_grp

/-! ## Log Format Profiles, registry, and the orchestrator -/

/-- The capability set a Log Format Profile supplies: the three stubbers'
overridable parts and the two refill steps.  `replace_miscellaneous_stub`
takes the line's stream of random draws and may fail (the base default
raises `NameError`); `replace_date_and_time_stub` takes the delta-draw
stream and the `strftime` renderer. -/
structure Profile where
  stub_date_and_time : String → String
  stub_miscellaneous : String → String
  replace_miscellaneous_stub : (Nat → Nat) → String → Except String String
  replace_date_and_time_stub : (Nat → Nat) → (Nat → String) → List String → List String

/-- `IgkExtremeLogTuner` as a profile (draw 0 = `times`, draw 1 = `seconds`). -/
def igkProfile : Profile where
  stub_date_and_time := IgkExtremeLogTuner.stub_date_and_time
  stub_miscellaneous := IgkExtremeLogTuner.stub_miscellaneous
  replace_miscellaneous_stub := fun r line =>
    .ok (IgkExtremeLogTuner.replace_miscellaneous_stub (r 0) (r 1) line)
  replace_date_and_time_stub := IgkExtremeLogTuner.replace_date_and_time_stub

/-- `CiscoWlcLogTuner` as a profile; `random_macs` is the pool built by
`_generate_macs` at construction (draw 0 = the `random.choice` pick). -/
def wlcProfile (random_macs : List String) : Profile where
  stub_date_and_time := CiscoWlcLogTuner.stub_date_and_time
  stub_miscellaneous := CiscoWlcLogTuner.stub_miscellaneous
  replace_miscellaneous_stub := fun r line =>
    .ok (CiscoWlcLogTuner.replace_miscellaneous_stub random_macs (r 0) line)
  replace_date_and_time_stub := CiscoWlcLogTuner.replace_date_and_time_stub

/-- `CiscoIosLogTuner` as a profile (draw 0 = VLAN, draw 1 = group). -/
def iosProfile : Profile where
  stub_date_and_time := CiscoIosLogTuner.stub_date_and_time
  stub_miscellaneous := CiscoIosLogTuner.stub_miscellaneous
  replace_miscellaneous_stub := fun r line =>
    .ok (CiscoIosLogTuner.replace_miscellaneous_stub (r 0) (r 1) line)
  replace_date_and_time_stub := CiscoIosLogTuner.replace_date_and_time_stub

/-- The `classes` registry of the `__main__` block.  The Wlc entry carries
its MAC pool, generated at construction from the byte-draw stream `g`. -/
def classes (g : Nat → Nat) : List (String × Profile) :=
  [("CiscoIosLogTuner", iosProfile),
   ("CiscoWlcLogTuner", wlcProfile (CiscoWlcLogTuner.generate_macs g 10000)),
   ("IgkExtremeLogTuner", igkProfile)]

/-- The two instance attributes set by `LogTuner.__init__` that later phases
read: the raw sample lines and the stubbed templates. -/
structure LogTunerState where
  log_lines : List String
  common_log_lines : List String

/-- `LogTuner.gather_common_log_lines`: datetime stub, then IP stub, then
miscellaneous stub, one template per sample line. -/
def gather_common_log_lines (p : Profile) (log_lines : List String) : List String :=
  log_lines.map (fun line =>
    p.stub_miscellaneous (LogTuner.stub_ip_addresses (p.stub_date_and_time line)))

/-- `LogTuner.__init__` (the file read is external; `log_lines` is its
result): store the sample lines and build the template pool once. -/
def LogTuner.init (p : Profile) (log_lines : List String) : LogTunerState :=
  { log_lines := log_lines, common_log_lines := gather_common_log_lines p log_lines }

/-- The generation loop of `LogTuner.generate_log`, processing iterations
`i, i+1, …` (`k` iterations remain): pick a random template from
`self.common_log_lines`, refill the IP stub (four byte draws per line from
`ipS`), then the miscellaneous stub (per-line draw stream `miscS i`).  The
state is threaded through every iteration; a `NameError` from the base
miscellaneous refill aborts the loop. -/
def genFrom (p : Profile) (choiceS ipS : Nat → Nat) (miscS : Nat → Nat → Nat) :
    LogTunerState → Nat → Nat → LogTunerState × Except String (List String)
  | st, _, 0 => (st, .ok [])
  | st, i, Nat.succ k =>
    let line0 := pyChoice st.common_log_lines (choiceS i)
    let line1 := LogTuner.replace_ip_addresses_stub
      (ipS (4 * i)) (ipS (4 * i + 1)) (ipS (4 * i + 2)) (ipS (4 * i + 3)) line0
    match p.replace_miscellaneous_stub (miscS i) line1 with
    | .error e => (st, .error e)
    | .ok line2 =>
      match genFrom p choiceS ipS miscS st (i + 1) k with
      | (st2, .error e) => (st2, .error e)
      | (st2, .ok rest) => (st2, .ok (line2 :: rest))

/-- `LogTuner.generate_log` up to the file write (external): size estimate,
per-line refill loop, then the batched datetime refill.  Returns the final
instance state and either the generated lines or the raised error. -/
def generate_log (p : Profile) (st : LogTunerState) (size_mb sample_file_size : Nat)
    (choiceS ipS : Nat → Nat) (miscS : Nat → Nat → Nat) (dtS : Nat → Nat)
    (render : Nat → String) : LogTunerState × Except String (List String) :=
  match LogTuner.calculate_required_number_of_lines st.log_lines sample_file_size size_mb with
  | .error e => (st, .error e)
  | .ok required_lines_num =>
    match genFrom p choiceS ipS miscS st 0 required_lines_num with
    | (st2, .error e) => (st2, .error e)
    | (st2, .ok generated) => (st2, .ok (p.replace_date_and_time_stub dtS render generated))

/-- The conclusion of claim C1, for one delta-draw stream `d`, renderer
`render`, and generated batch `lines`: for each of the three profiles, the
batched datetime refill's cursor sequence never decreases (starting from the
profile's fixed seed, it never resets), and the batch equals, line by line,
the template with the rendering of the cursor `seqCursor`/`igkCursor`
(the seed advanced by the cumulative sum of the draws consumed so far)
substituted or prepended. -/
def monotonicBatchSpec (d : Nat → Nat) (render : Nat → String) (lines : List String) : Prop :=
  (List.Chain (· ≤ ·) igkSeedMs ((igkBatch d render lines igkSeedMs 0).map Prod.snd) ∧
    igkBatch d render lines igkSeedMs 0 =
      List.zipWith
        (fun k line =>
          (if pyBlank line then line else render (igkCursor d lines igkSeedMs 0 k) ++ line,
            igkCursor d lines igkSeedMs 0 k))
        (List.range lines.length) lines ∧
    IgkExtremeLogTuner.replace_date_and_time_stub d render lines =
      (List.zipWith
        (fun k line =>
          (if pyBlank line then line else render (igkCursor d lines igkSeedMs 0 k) ++ line,
            igkCursor d lines igkSeedMs 0 k))
        (List.range lines.length) lines).map Prod.fst) ∧
  (List.Chain (· ≤ ·) wlcSeedMs ((wlcBatch d render lines wlcSeedMs 0).map Prod.snd) ∧
    wlcBatch d render lines wlcSeedMs 0 =
      List.zipWith
        (fun k line =>
          (pyReplaceAll line CiscoWlcLogTuner.DATETIME_STUB (render (seqCursor d wlcSeedMs 0 k)),
            seqCursor d wlcSeedMs 0 k))
        (List.range lines.length) lines ∧
    CiscoWlcLogTuner.replace_date_and_time_stub d render lines =
      (List.zipWith
        (fun k line =>
          (pyReplaceAll line CiscoWlcLogTuner.DATETIME_STUB (render (seqCursor d wlcSeedMs 0 k)),
            seqCursor d wlcSeedMs 0 k))
        (List.range lines.length) lines).map Prod.fst) ∧
  (List.Chain (· ≤ ·) iosSeedMs ((iosBatch d render lines iosSeedMs 0).map Prod.snd) ∧
    iosBatch d render lines iosSeedMs 0 =
      List.zipWith
        (fun k line => (render (seqCursor d iosSeedMs 0 k) ++ line, seqCursor d iosSeedMs 0 k))
        (List.range lines.length) lines ∧
    CiscoIosLogTuner.replace_date_and_time_stub d render lines =
      (List.zipWith
        (fun k line => (render (seqCursor d iosSeedMs 0 k) ++ line, seqCursor d iosSeedMs 0 k))
        (List.range lines.length) lines).map Prod.fst)

/-- The spec's wording of the VLAN/group refill, as a definition to compare
against the code: an independent random VLAN draw (`dv k` for the `k`-th
VLAN-placeholder occurrence) and an independent random group draw (`dg k`)
per occurrence, every occurrence replaced. -/
def replace_miscellaneous_per_occurrence (dv dg : Nat → Nat) (line : String) : String :=
  let line1 :=
    streamReplaceAll line CiscoIosLogTuner.VLAN_STUB (fun k => "Vlan" ++ toString (dv k))
  streamReplaceAll line1 CiscoIosLogTuner.GRP_STUB (fun k => "Grp " ++ toString (dg k))

/-! ## Lemmas about the replace scans -/

theorem string_mk_data (s : String) : String.mk s.data = s := by
  cases s
  rfl

/-- With a constant stream, occurrence-indexed replacement is exactly
Python `str.replace`. -/
theorem streamReplaceCore_const (old new : List Char) :
    ∀ (fuel : Nat) (s : List Char) (j k : Nat),
      streamReplaceCore old (fun _ => new) fuel s j k = pyReplaceCore old new fuel s k := by
  intro fuel
  induction fuel with
  | zero =>
    intro s j k
    cases s <;> cases k <;> simp [streamReplaceCore, pyReplaceCore]
  | succ n ih =>
    intro s j k
    cases s with
    | nil => simp [streamReplaceCore, pyReplaceCore]
    | cons c cs =>
      cases k with
      | zero => simp [streamReplaceCore, pyReplaceCore]
      | succ k =>
        by_cases h : 0 < old.length ∧ old.isPrefixOf (c :: cs)
        · simp [streamReplaceCore, pyReplaceCore, h, ih]
        · simp [streamReplaceCore, pyReplaceCore, h, ih]

/-- The instrumented scan returns the same string as `pyReplaceCore`. -/
theorem pyReplaceNCore_fst (old new : List Char) :
    ∀ (fuel : Nat) (s : List Char) (k : Nat),
      (pyReplaceNCore old new fuel s k).1 = pyReplaceCore old new fuel s k := by
  intro fuel
  induction fuel with
  | zero =>
    intro s k
    cases s <;> cases k <;> simp [pyReplaceNCore, pyReplaceCore]
  | succ n ih =>
    intro s k
    cases s with
    | nil => simp [pyReplaceNCore, pyReplaceCore]
    | cons c cs =>
      cases k with
      | zero => simp [pyReplaceNCore, pyReplaceCore]
      | succ k =>
        by_cases h : 0 < old.length ∧ old.isPrefixOf (c :: cs)
        · simp only [pyReplaceNCore, pyReplaceCore, if_pos h, ih]
        · simp only [pyReplaceNCore, pyReplaceCore, if_neg h, ih]

/-- The number of replacements `str.replace(old, new, k)` performs is
exactly `min k (number of occurrences)`. -/
theorem pyReplaceNCore_snd (old new : List Char) :
    ∀ (fuel : Nat) (s : List Char) (k : Nat),
      (pyReplaceNCore old new fuel s k).2 = min k (occCountCore old fuel s) := by
  intro fuel
  induction fuel with
  | zero =>
    intro s k
    cases s <;> cases k <;> simp [pyReplaceNCore, occCountCore]
  | succ n ih =>
    intro s k
    cases s with
    | nil => simp [pyReplaceNCore, occCountCore]
    | cons c cs =>
      cases k with
      | zero => simp [pyReplaceNCore, occCountCore]
      | succ k =>
        by_cases h : 0 < old.length ∧ old.isPrefixOf (c :: cs)
        · simp only [pyReplaceNCore, occCountCore, if_pos h, ih]
          omega
        · simp only [pyReplaceNCore, occCountCore, if_neg h, ih]

/-- `str.replace` is the identity when the pattern's first character does
not occur in the string (hence the pattern cannot occur). -/
theorem pyReplaceCore_id_of_head_notin (o : Char) (os new : List Char) :
    ∀ (fuel : Nat) (s : List Char) (k : Nat), o ∉ s →
      pyReplaceCore (o :: os) new fuel s k = s := by
  intro fuel
  induction fuel with
  | zero =>
    intro s k _
    cases s <;> cases k <;> simp [pyReplaceCore]
  | succ n ih =>
    intro s k hnotin
    cases s with
    | nil => simp [pyReplaceCore]
    | cons c cs =>
      cases k with
      | zero => simp [pyReplaceCore]
      | succ k =>
        have hnot : ¬ (0 < (o :: os).length ∧ (o :: os).isPrefixOf (c :: cs)) := by
          rintro ⟨-, hpre⟩
          rw [List.isPrefixOf_iff_prefix] at hpre
          obtain ⟨t, ht⟩ := hpre
          have hoc : o = c := by
            have := congrArg (·.head?) ht
            simpa using this
          exact hnotin (hoc ▸ List.mem_cons_self _ _)
        rw [pyReplaceCore, if_neg hnot]
        have := ih cs (k + 1) (fun hx => hnotin (List.mem_cons_of_mem c hx))
        rw [this]

/-- `str.replace` leaves a blank (whitespace-only) string untouched whenever
the pattern starts with a non-whitespace character. -/
theorem pyReplace_blank {old : String} {o : Char} {os : List Char}
    (hold : old.data = o :: os) (ho : pySpace o = false)
    (s new : String) (count : Nat) (hs : pyBlank s = true) :
    pyReplace s old new count = s := by
  have hnotin : o ∉ s.data := by
    intro hc
    have h1 : pySpace o = true := by
      have := (List.all_eq_true.mp hs) o hc
      simpa using this
    rw [h1] at ho
    exact Bool.noConfusion ho
  unfold pyReplace
  rw [hold, pyReplaceCore_id_of_head_notin o os new.data _ _ _ hnotin, string_mk_data]

/-- Like `pyReplace_blank`, for count-less `replace`. -/
theorem pyReplaceAll_blank {old : String} {o : Char} {os : List Char}
    (hold : old.data = o :: os) (ho : pySpace o = false)
    (s new : String) (hs : pyBlank s = true) :
    pyReplaceAll s old new = s := by
  have hnotin : o ∉ s.data := by
    intro hc
    have h1 : pySpace o = true := by
      have := (List.all_eq_true.mp hs) o hc
      simpa using this
    rw [h1] at ho
    exact Bool.noConfusion ho
  unfold pyReplaceAll
  rw [hold, pyReplaceCore_id_of_head_notin o os new.data _ _ _ hnotin, string_mk_data]

/-! ## No pattern matches inside whitespace -/

theorem pySpace_cases {c : Char} (h : pySpace c = true) :
    c = ' ' ∨ c = '\t' ∨ c = '\n' ∨ c = '\r' ∨ c = Char.ofNat 11 ∨ c = Char.ofNat 12 := by
  have h2 := h
  simp [pySpace] at h2
  tauto

theorem pySpace_not_digit {c : Char} (h : pySpace c = true) : c.isDigit = false := by
  rcases pySpace_cases h with rfl | rfl | rfl | rfl | rfl | rfl <;> decide

theorem pySpace_not_hex {c : Char} (h : pySpace c = true) : isHexChar c = false := by
  rcases pySpace_cases h with rfl | rfl | rfl | rfl | rfl | rfl <;> decide

theorem digitRun_space {s : List Char} (h : ∀ c ∈ s, pySpace c = true) : digitRun s = 0 := by
  cases s with
  | nil => rfl
  | cons c cs =>
    have := pySpace_not_digit (h c (List.mem_cons_self _ _))
    simp [digitRun, this]

theorem matchIpLen_space {s : List Char} (h : ∀ c ∈ s, pySpace c = true) :
    matchIpLen s = none := by
  simp [matchIpLen, digitRun_space h]

theorem matchLastSecondsLen_space {s : List Char} (h : ∀ c ∈ s, pySpace c = true) :
    matchLastSecondsLen s = none := by
  simp [matchLastSecondsLen, digitRun_space h]

theorem expectDigits_space {n : Nat} {s : List Char} (h : ∀ c ∈ s, pySpace c = true) :
    expectDigits (n + 1) s = none := by
  cases s with
  | nil => rfl
  | cons c cs =>
    have := pySpace_not_digit (h c (List.mem_cons_self _ _))
    simp [expectDigits, this]

theorem matchTimeLen_space {s : List Char} (h : ∀ c ∈ s, pySpace c = true) :
    matchTimeLen s = none := by
  have h2 : expectDigits 2 s = none := expectDigits_space h
  simp [matchTimeLen, h2]

theorem expectHex2_space {s : List Char} (h : ∀ c ∈ s, pySpace c = true) :
    expectHex2 s = none := by
  rcases s with _ | ⟨a, _ | ⟨b, r⟩⟩
  · rfl
  · rfl
  · have := pySpace_not_hex (h a (List.mem_cons_self _ _))
    simp [expectHex2, this]

theorem matchMacLen_space {s : List Char} (h : ∀ c ∈ s, pySpace c = true) :
    matchMacLen s = none := by
  simp [matchMacLen, expectHex2_space h]

theorem matchVlanLen_space {s : List Char} (h : ∀ c ∈ s, pySpace c = true) :
    matchVlanLen s = none := by
  cases s with
  | nil => rfl
  | cons c cs =>
    have hv : ('V' == c) = false := by
      rcases pySpace_cases (h c (List.mem_cons_self _ _)) with rfl | rfl | rfl | rfl | rfl | rfl <;>
        decide
    have hpre : (("Vlan".data).isPrefixOf (c :: cs)) = false := by
      show List.isPrefixOf ['V', 'l', 'a', 'n'] (c :: cs) = false
      simp [List.isPrefixOf, hv]
    simp [matchVlanLen, hpre]

theorem matchGrpLen_space {s : List Char} (h : ∀ c ∈ s, pySpace c = true) :
    matchGrpLen s = none := by
  cases s with
  | nil => rfl
  | cons c cs =>
    have hv : ('G' == c) = false := by
      rcases pySpace_cases (h c (List.mem_cons_self _ _)) with rfl | rfl | rfl | rfl | rfl | rfl <;>
        decide
    have hpre : (("Grp ".data).isPrefixOf (c :: cs)) = false := by
      show List.isPrefixOf ['G', 'r', 'p', ' '] (c :: cs) = false
      simp [List.isPrefixOf, hv]
    simp [matchGrpLen, hpre]

theorem reFindCore_space (m : List Char → Option Nat)
    (hm : ∀ t, (∀ c ∈ t, pySpace c = true) → m t = none) :
    ∀ (fuel : Nat) (s : List Char), (∀ c ∈ s, pySpace c = true) → reFindCore m fuel s = [] := by
  intro fuel
  induction fuel with
  | zero => intro s _; cases s <;> simp [reFindCore]
  | succ n ih =>
    intro s h
    cases s with
    | nil => simp [reFindCore]
    | cons c cs =>
      have hs : m (c :: cs) = none := hm _ h
      simp only [reFindCore, hs]
      exact ih cs (fun x hx => h x (List.mem_cons_of_mem c hx))

/-- `re.findall` finds nothing in a blank line, for every pattern whose
matcher fails on whitespace-only suffixes. -/
theorem reFindall_blank (m : List Char → Option Nat)
    (hm : ∀ t, (∀ c ∈ t, pySpace c = true) → m t = none)
    (s : String) (hs : pyBlank s = true) : reFindall m s = [] := by
  unfold reFindall
  rw [reFindCore_space m hm _ _ (fun c hc => by simpa using (List.all_eq_true.mp hs) c hc)]
  rfl

/-! ## Cursor arithmetic -/

theorem partSum_succ (d : Nat → Nat) (i n : Nat) :
    partSum d i (n + 1) = d i + partSum d (i + 1) n := rfl

theorem seqCursor_zero (d : Nat → Nat) (c i : Nat) : seqCursor d c i 0 = c + d i := by
  simp [seqCursor, partSum]

theorem seqCursor_succ (d : Nat → Nat) (c i k : Nat) :
    seqCursor d c i (k + 1) = seqCursor d (c + d i) (i + 1) k := by
  simp only [seqCursor, partSum]
  omega

theorem igkCursor_zero_blank {line : String} (h : pyBlank line = true)
    (d : Nat → Nat) (rest : List String) (c i : Nat) :
    igkCursor d (line :: rest) c i 0 = c := by
  simp [igkCursor, List.take_succ_cons, countNonBlank, h, partSum]

theorem igkCursor_zero_nonblank {line : String} (h : pyBlank line = false)
    (d : Nat → Nat) (rest : List String) (c i : Nat) :
    igkCursor d (line :: rest) c i 0 = c + d i := by
  simp [igkCursor, List.take_succ_cons, countNonBlank, h, partSum]

theorem igkCursor_succ_blank {line : String} (h : pyBlank line = true)
    (d : Nat → Nat) (rest : List String) (c i k : Nat) :
    igkCursor d (line :: rest) c i (k + 1) = igkCursor d rest c i k := by
  simp [igkCursor, List.take_succ_cons, countNonBlank, h]

theorem igkCursor_succ_nonblank {line : String} (h : pyBlank line = false)
    (d : Nat → Nat) (rest : List String) (c i k : Nat) :
    igkCursor d (line :: rest) c i (k + 1) = igkCursor d rest (c + d i) (i + 1) k := by
  simp only [igkCursor, List.take_succ_cons, countNonBlank, h, Bool.false_eq_true, if_false]
  rw [partSum_succ]
  omega

/-! ## Batch refill characterizations -/

/-- `CiscoWlcLogTuner._replace_date_and_time_stub`, line by line: the `k`-th
output line substitutes the rendering of cursor `seqCursor d c i k` (the
start cursor advanced by the cumulative sum of the first `k + 1` delta
draws) and carries that cursor. -/
theorem wlcBatch_eq (d : Nat → Nat) (render : Nat → String) :
    ∀ (ls : List String) (c i : Nat),
      wlcBatch d render ls c i =
        List.zipWith
          (fun k line =>
            (pyReplaceAll line CiscoWlcLogTuner.DATETIME_STUB (render (seqCursor d c i k)),
              seqCursor d c i k))
          (List.range ls.length) ls := by
  intro ls
  induction ls with
  | nil => intro c i; simp [wlcBatch]
  | cons line rest ih =>
    intro c i
    rw [List.length_cons, List.range_succ_eq_map, List.zipWith_cons_cons, List.zipWith_map_left]
    simp only [wlcBatch, ih, seqCursor_zero, seqCursor_succ, Nat.succ_eq_add_one]

/-- `CiscoIosLogTuner._replace_date_and_time_stub`, line by line: the `k`-th
output line is the rendering of cursor `seqCursor d c i k` prepended to the
template, and carries that cursor. -/
theorem iosBatch_eq (d : Nat → Nat) (render : Nat → String) :
    ∀ (ls : List String) (c i : Nat),
      iosBatch d render ls c i =
        List.zipWith
          (fun k line => (render (seqCursor d c i k) ++ line, seqCursor d c i k))
          (List.range ls.length) ls := by
  intro ls
  induction ls with
  | nil => intro c i; simp [iosBatch]
  | cons line rest ih =>
    intro c i
    rw [List.length_cons, List.range_succ_eq_map, List.zipWith_cons_cons, List.zipWith_map_left]
    simp only [iosBatch, ih, seqCursor_zero, seqCursor_succ, Nat.succ_eq_add_one]

/-- `IgkExtremeLogTuner._replace_date_and_time_stub`, line by line: a blank
line is copied with the cursor unchanged; a non-blank line gets the
rendering of cursor `igkCursor d ls c i k` (the start cursor advanced by the
deltas of the non-blank lines so far) prepended. -/
theorem igkBatch_eq (d : Nat → Nat) (render : Nat → String) :
    ∀ (ls : List String) (c i : Nat),
      igkBatch d render ls c i =
        List.zipWith
          (fun k line =>
            (if pyBlank line then line else render (igkCursor d ls c i k) ++ line,
              igkCursor d ls c i k))
          (List.range ls.length) ls := by
  intro ls
  induction ls with
  | nil => intro c i; simp [igkBatch]
  | cons line rest ih =>
    intro c i
    rw [List.length_cons, List.range_succ_eq_map, List.zipWith_cons_cons, List.zipWith_map_left]
    by_cases hb : pyBlank line = true
    · simp only [igkBatch, hb, if_true, ih, igkCursor_zero_blank hb, igkCursor_succ_blank hb,
        Nat.succ_eq_add_one]
    · rw [Bool.not_eq_true] at hb
      simp only [igkBatch, hb, Bool.false_eq_true, if_false, ih, igkCursor_zero_nonblank hb,
        igkCursor_succ_nonblank hb, Nat.succ_eq_add_one]

/-- The cursor sequence of the Igk batch never decreases. -/
theorem igkBatch_chain (d : Nat → Nat) (render : Nat → String) :
    ∀ (ls : List String) (c i : Nat),
      List.Chain (· ≤ ·) c ((igkBatch d render ls c i).map Prod.snd) := by
  intro ls
  induction ls with
  | nil => intro c i; simp [igkBatch]
  | cons line rest ih =>
    intro c i
    by_cases hb : pyBlank line = true
    · simp only [igkBatch, hb, if_true, List.map_cons, List.chain_cons]
      exact ⟨Nat.le_refl c, ih c i⟩
    · rw [Bool.not_eq_true] at hb
      simp only [igkBatch, hb, Bool.false_eq_true, if_false, List.map_cons, List.chain_cons]
      exact ⟨Nat.le_add_right c (d i), ih (c + d i) (i + 1)⟩

/-- The cursor sequence of the Wlc batch never decreases. -/
theorem wlcBatch_chain (d : Nat → Nat) (render : Nat → String) :
    ∀ (ls : List String) (c i : Nat),
      List.Chain (· ≤ ·) c ((wlcBatch d render ls c i).map Prod.snd) := by
  intro ls
  induction ls with
  | nil => intro c i; simp [wlcBatch]
  | cons line rest ih =>
    intro c i
    simp only [wlcBatch, List.map_cons, List.chain_cons]
    exact ⟨Nat.le_add_right c (d i), ih (c + d i) (i + 1)⟩

/-- The cursor sequence of the Ios batch never decreases. -/
theorem iosBatch_chain (d : Nat → Nat) (render : Nat → String) :
    ∀ (ls : List String) (c i : Nat),
      List.Chain (· ≤ ·) c ((iosBatch d render ls c i).map Prod.snd) := by
  intro ls
  induction ls with
  | nil => intro c i; simp [iosBatch]
  | cons line rest ih =>
    intro c i
    simp only [iosBatch, List.map_cons, List.chain_cons]
    exact ⟨Nat.le_add_right c (d i), ih (c + d i) (i + 1)⟩

/-! ## Orchestrator lemmas -/

/-- The generation loop never writes the instance attributes: the state it
returns is the state it was given. -/
theorem genFrom_fst (p : Profile) (choiceS ipS : Nat → Nat) (miscS : Nat → Nat → Nat) :
    ∀ (k : Nat) (st : LogTunerState) (i : Nat),
      (genFrom p choiceS ipS miscS st i k).1 = st := by
  intro k
  induction k with
  | zero => intro st i; rfl
  | succ n ih =>
    intro st i
    simp only [genFrom]
    split
    · rfl
    · split
      · rename_i heq
        have h2 := ih st (i + 1)
        rw [heq] at h2
        exact h2
      · rename_i heq
        have h2 := ih st (i + 1)
        rw [heq] at h2
        exact h2

/-- If the profile's miscellaneous refill always succeeds, the generation
loop succeeds. -/
theorem genFrom_ok (p : Profile) (choiceS ipS : Nat → Nat) (miscS : Nat → Nat → Nat)
    (hp : ∀ r line, (p.replace_miscellaneous_stub r line).isOk = true) :
    ∀ (k : Nat) (st : LogTunerState) (i : Nat),
      ∃ out, genFrom p choiceS ipS miscS st i k = (st, .ok out) := by
  intro k
  induction k with
  | zero => intro st i; exact ⟨[], rfl⟩
  | succ n ih =>
    intro st i
    simp only [genFrom]
    cases hmisc : p.replace_miscellaneous_stub (miscS i)
        (LogTuner.replace_ip_addresses_stub (ipS (4 * i)) (ipS (4 * i + 1)) (ipS (4 * i + 2))
          (ipS (4 * i + 3)) (pyChoice st.common_log_lines (choiceS i))) with
    | error e =>
      have := hp (miscS i)
        (LogTuner.replace_ip_addresses_stub (ipS (4 * i)) (ipS (4 * i + 1)) (ipS (4 * i + 2))
          (ipS (4 * i + 3)) (pyChoice st.common_log_lines (choiceS i)))
      rw [hmisc] at this
      exact absurd this (by simp [Except.isOk, Except.toBool])
    | ok line2 =>
      obtain ⟨out, hout⟩ := ih st (i + 1)
      rw [hout]
      exact ⟨line2 :: out, rfl⟩

/-- `generate_log` never writes the instance attributes. -/
theorem generate_log_fst (p : Profile) (st : LogTunerState) (size_mb sample_file_size : Nat)
    (choiceS ipS : Nat → Nat) (miscS : Nat → Nat → Nat) (dtS : Nat → Nat)
    (render : Nat → String) :
    (generate_log p st size_mb sample_file_size choiceS ipS miscS dtS render).1 = st := by
  simp only [generate_log]
  split
  · rfl
  · rename_i n hcalc
    split
    · rename_i heq
      have h2 := genFrom_fst p choiceS ipS miscS n st 0
      rw [heq] at h2
      exact h2
    · rename_i heq
      have h2 := genFrom_fst p choiceS ipS miscS n st 0
      rw [heq] at h2
      exact h2

/-- The only error the size estimator can raise is the division error. -/
theorem calculate_error_is_zero_div (log_lines : List String) (sample_file_size size_mb : Nat)
    (e : String)
    (h : LogTuner.calculate_required_number_of_lines log_lines sample_file_size size_mb =
      .error e) : e = zeroDivMsg := by
  unfold LogTuner.calculate_required_number_of_lines pyIntDiv at h
  by_cases h1 : log_lines.length = 0
  · simp [h1] at h
    exact h.symm
  · simp only [h1, if_false, reduceIte] at h
    by_cases h2 : sample_file_size / log_lines.length = 0
    · simp [h2] at h
      exact h.symm
    · simp [h2] at h

/-- The size estimator fails exactly on a zero line count or a zero average
line size, and otherwise returns floor(target bytes / floor(file size /
line count)). -/
theorem calculate_spec (log_lines : List String) (sample_file_size size_mb : Nat) :
    ((∃ e, LogTuner.calculate_required_number_of_lines log_lines sample_file_size size_mb =
        .error e) ↔
      (log_lines.length = 0 ∨ sample_file_size / log_lines.length = 0)) ∧
    (∀ n, LogTuner.calculate_required_number_of_lines log_lines sample_file_size size_mb =
        .ok n →
      n = size_mb * 1024 * 1024 / (sample_file_size / log_lines.length)) := by
  unfold LogTuner.calculate_required_number_of_lines pyIntDiv
  by_cases h1 : log_lines.length = 0
  · simp [h1]
  · by_cases h2 : sample_file_size / log_lines.length = 0
    · simp [h1, h2]
    · simp [h1, h2]

/-! ## Remaining auxiliary lemmas -/

/-- Dropping characters preserves blankness. -/
theorem pyBlank_drop (s : String) (n : Nat) (hs : pyBlank s = true) :
    pyBlank ⟨s.data.drop n⟩ = true := by
  unfold pyBlank at hs ⊢
  rw [List.all_eq_true] at hs ⊢
  intro c hc
  exact hs c (List.drop_subset n s.data hc)

/-- Indexing a `zipWith` over `range`. -/
theorem zipWith_range_getElem? {α β : Type} :
    ∀ (ls : List α) (f : Nat → α → β) (k : Nat) (a : α), ls[k]? = some a →
      (List.zipWith f (List.range ls.length) ls)[k]? = some (f k a) := by
  intro ls
  induction ls with
  | nil => intro f k a h; simp at h
  | cons x rest ih =>
    intro f k a h
    rw [List.length_cons, List.range_succ_eq_map, List.zipWith_cons_cons, List.zipWith_map_left]
    cases k with
    | zero =>
      simp only [List.getElem?_cons_zero, Option.some.injEq] at h
      subst h
      simp
    | succ k =>
      simp only [List.getElem?_cons_succ] at h ⊢
      have h2 := ih (fun a b => f (a + 1) b) k a h
      simpa [Nat.succ_eq_add_one] using h2

/-- Back-peeling a partial sum: the last consumed draw. -/
theorem partSum_snoc (d : Nat → Nat) :
    ∀ (n i : Nat), partSum d i (n + 1) = partSum d i n + d (i + n) := by
  intro n
  induction n with
  | zero => intro i; simp [partSum]
  | succ m ih =>
    intro i
    rw [partSum_succ, ih (i + 1), partSum_succ]
    have harg : i + 1 + m = i + (m + 1) := by omega
    rw [harg]
    omega

/-- Each step of the Wlc/Ios cursor advances by exactly the next draw. -/
theorem seqCursor_advance (d : Nat → Nat) (c i k : Nat) :
    seqCursor d c i (k + 1) = seqCursor d c i k + d (i + (k + 1)) := by
  unfold seqCursor
  rw [partSum_snoc]
  omega

/-- With a registered (always succeeding) miscellaneous refill, the only
error `generate_log` can produce is the size estimator's division error. -/
theorem generate_log_error_is_zero_div (p : Profile) (st : LogTunerState)
    (size_mb sample_file_size : Nat) (choiceS ipS : Nat → Nat) (miscS : Nat → Nat → Nat)
    (dtS : Nat → Nat) (render : Nat → String)
    (hp : ∀ r line, (p.replace_miscellaneous_stub r line).isOk = true) (e : String)
    (h : (generate_log p st size_mb sample_file_size choiceS ipS miscS dtS render).2 =
      .error e) : e = zeroDivMsg := by
  unfold generate_log at h
  cases hcalc : LogTuner.calculate_required_number_of_lines st.log_lines sample_file_size
      size_mb with
  | error e2 =>
    rw [hcalc] at h
    simp at h
    subst h
    exact calculate_error_is_zero_div _ _ _ _ hcalc
  | ok n =>
    obtain ⟨out, hout⟩ := genFrom_ok p choiceS ipS miscS hp n st 0
    rw [hcalc] at h
    simp [hout] at h

/-! ## Claims -/

/-- C1: for every generated batch and every Log Format Profile, the batched
datetime-sequence refill renders timestamps that are non-decreasing in
chronological order: each successive timestamp is the profile's fixed seed
advanced by the cumulative sum of the per-line delta draws (each drawn from
`randint(0, 100)`, hence non-negative), and the cursor never resets across
the batch. -/
theorem claim_C1_monotonic_timestamp_batches (d : Nat → Nat) (render : Nat → String)
    (lines : List String) (_hd : ∀ n, d n ≤ 100) : monotonicBatchSpec d render lines := by
  refine ⟨⟨igkBatch_chain d render lines igkSeedMs 0, igkBatch_eq d render lines igkSeedMs 0, ?_⟩,
    ⟨wlcBatch_chain d render lines wlcSeedMs 0, wlcBatch_eq d render lines wlcSeedMs 0, ?_⟩,
    ⟨iosBatch_chain d render lines iosSeedMs 0, iosBatch_eq d render lines iosSeedMs 0, ?_⟩⟩
  · unfold IgkExtremeLogTuner.replace_date_and_time_stub
    rw [igkBatch_eq d render lines igkSeedMs 0]
  · unfold CiscoWlcLogTuner.replace_date_and_time_stub
    rw [wlcBatch_eq d render lines wlcSeedMs 0]
  · unfold CiscoIosLogTuner.replace_date_and_time_stub
    rw [iosBatch_eq d render lines iosSeedMs 0]

theorem claim_C1_witness :
    (∀ n, (fun _ : Nat => 7) n ≤ 100) ∧
      monotonicBatchSpec (fun _ => 7) (fun n => toString n) ["a", " ", "b"] :=
  ⟨fun _ => by norm_num,
    claim_C1_monotonic_timestamp_batches (fun _ => 7) (fun n => toString n) ["a", " ", "b"]
      (fun _ => by norm_num)⟩

theorem countNonBlank_append :
    ∀ (a b : List String), countNonBlank (a ++ b) = countNonBlank a + countNonBlank b := by
  intro a b
  induction a with
  | nil => simp [countNonBlank]
  | cons x xs ih =>
    by_cases hb : pyBlank x = true
    · simp [countNonBlank, hb, ih]
    · rw [Bool.not_eq_true] at hb
      simp [countNonBlank, hb, ih]
      omega

theorem countNonBlank_take_succ_blank (ls : List String) (k : Nat) (l : String)
    (h : ls[k]? = some l) (hb : pyBlank l = true) :
    countNonBlank (ls.take (k + 1)) = countNonBlank (ls.take k) := by
  rw [List.take_succ, h, countNonBlank_append]
  simp [countNonBlank, hb]

/-- At a blank position the Igk cursor does not advance. -/
theorem igkCursor_blank_at (d : Nat → Nat) (ls : List String) (c i k : Nat) (l : String)
    (h : ls[k]? = some l) (hb : pyBlank l = true) :
    igkCursor d ls c i k = igkCursor d ls c i (k - 1) ∧
      (k = 0 → igkCursor d ls c i k = c) := by
  constructor
  · cases k with
    | zero => rfl
    | succ m =>
      unfold igkCursor
      rw [countNonBlank_take_succ_blank ls (m + 1) l h hb]
      simp
  · intro hk
    subst hk
    unfold igkCursor
    rw [countNonBlank_take_succ_blank ls 0 l h hb]
    simp [countNonBlank, partSum]

/-- C2 counterexample: under CiscoIosLogTuner, a blank line in the generated
batch does receive a timestamp (prepended) and does advance the cursor,
contradicting the claim for that profile. -/
theorem claim_C2_counterexample :
    pyBlank "" = true ∧
    CiscoIosLogTuner.replace_date_and_time_stub (fun _ => 1) (fun n => toString n) [""] =
      ["29111001"] ∧
    ("29111001" : String) ≠ "" ∧
    (iosBatch (fun _ => 1) (fun n => toString n) [""] iosSeedMs 0).map Prod.snd =
      [iosSeedMs + 1] := by
  exact ⟨rfl, by decide, by decide, by decide⟩

/-- C2 (amended): blank (empty or whitespace-only) lines become blank
templates under every profile and pass unchanged through every per-line
refill; but in the batched datetime refill only IgkExtremeLogTuner passes
blank lines through without a timestamp and without advancing the cursor:
CiscoWlcLogTuner leaves a blank line textually unchanged (no placeholder to
substitute) yet still advances the cursor on it, and CiscoIosLogTuner
prepends a timestamp to blank lines and advances the cursor. -/
theorem claim_C2_amended_blank_line_handling :
    (∀ line : String, pyBlank line = true →
      pyBlank (IgkExtremeLogTuner.stub_date_and_time line) = true ∧
      pyBlank (CiscoIosLogTuner.stub_date_and_time line) = true ∧
      CiscoWlcLogTuner.stub_date_and_time line = line ∧
      LogTuner.stub_ip_addresses line = line ∧
      IgkExtremeLogTuner.stub_miscellaneous line = line ∧
      CiscoWlcLogTuner.stub_miscellaneous line = line ∧
      CiscoIosLogTuner.stub_miscellaneous line = line) ∧
    (∀ (line : String) (r0 r1 r2 r3 t sc : Nat) (macs : List String) (ci rv rg : Nat),
      pyBlank line = true →
      LogTuner.replace_ip_addresses_stub r0 r1 r2 r3 line = line ∧
      IgkExtremeLogTuner.replace_miscellaneous_stub t sc line = line ∧
      CiscoWlcLogTuner.replace_miscellaneous_stub macs ci line = line ∧
      CiscoIosLogTuner.replace_miscellaneous_stub rv rg line = line) ∧
    (∀ (d : Nat → Nat) (render : Nat → String) (ls : List String) (c i k : Nat) (l : String),
      ls[k]? = some l → pyBlank l = true →
      (igkBatch d render ls c i)[k]? = some (l, igkCursor d ls c i k) ∧
      igkCursor d ls c i k = igkCursor d ls c i (k - 1) ∧
      (k = 0 → igkCursor d ls c i k = c)) ∧
    (∀ (d : Nat → Nat) (render : Nat → String) (ls : List String) (c i k : Nat) (l : String),
      ls[k]? = some l → pyBlank l = true →
      (wlcBatch d render ls c i)[k]? = some (l, seqCursor d c i k) ∧
      seqCursor d c i (k + 1) = seqCursor d c i k + d (i + (k + 1)) ∧
      seqCursor d c i 0 = c + d i) ∧
    (∀ (d : Nat → Nat) (render : Nat → String) (ls : List String) (c i k : Nat) (l : String),
      ls[k]? = some l → pyBlank l = true →
      (iosBatch d render ls c i)[k]? =
        some (render (seqCursor d c i k) ++ l, seqCursor d c i k)) := by
  refine ⟨?_, ?_, ?_, ?_, ?_⟩
  · intro line hs
    refine ⟨?_, ?_, ?_, ?_, ?_, ?_, ?_⟩
    · unfold IgkExtremeLogTuner.stub_date_and_time
      split
      · exact hs
      · exact pyBlank_drop line 22 hs
    · unfold CiscoIosLogTuner.stub_date_and_time
      split
      · exact hs
      · exact pyBlank_drop line 15 hs
    · unfold CiscoWlcLogTuner.stub_date_and_time
      rw [reFindall_blank _ (fun t ht => matchTimeLen_space ht) line hs]
      rfl
    · unfold LogTuner.stub_ip_addresses
      rw [reFindall_blank _ (fun t ht => matchIpLen_space ht) line hs]
      rfl
    · unfold IgkExtremeLogTuner.stub_miscellaneous
      rw [reFindall_blank _ (fun t ht => matchLastSecondsLen_space ht) line hs]
      rfl
    · unfold CiscoWlcLogTuner.stub_miscellaneous
      rw [reFindall_blank _ (fun t ht => matchMacLen_space ht) line hs]
      rfl
    · simp only [CiscoIosLogTuner.stub_miscellaneous]
      rw [reFindall_blank _ (fun t ht => matchVlanLen_space ht) line hs]
      simp only [List.foldl_nil]
      rw [reFindall_blank _ (fun t ht => matchGrpLen_space ht) line hs]
      simp only [List.foldl_nil]
  · intro line r0 r1 r2 r3 t sc macs ci rv rg hs
    refine ⟨?_, ?_, ?_, ?_⟩
    · simp only [LogTuner.replace_ip_addresses_stub]
      exact pyReplace_blank rfl (by decide) line _ 10 hs
    · simp only [IgkExtremeLogTuner.replace_miscellaneous_stub]
      split
      · rfl
      · exact pyReplaceAll_blank rfl (by decide) line _ hs
    · simp only [CiscoWlcLogTuner.replace_miscellaneous_stub]
      exact pyReplace_blank rfl (by decide) line _ 10 hs
    · simp only [CiscoIosLogTuner.replace_miscellaneous_stub]
      rw [pyReplaceAll_blank
        (show CiscoIosLogTuner.VLAN_STUB.data = '<' :: "vlan>".data from rfl) (by decide) line
        ("Vlan" ++ toString rv) hs]
      exact pyReplaceAll_blank
        (show CiscoIosLogTuner.GRP_STUB.data = '<' :: "grp>".data from rfl) (by decide) line
        ("Grp " ++ toString rg) hs
  · intro d render ls c i k l hl hb
    refine ⟨?_, igkCursor_blank_at d ls c i k l hl hb⟩
    rw [igkBatch_eq]
    rw [zipWith_range_getElem? ls _ k l hl]
    simp [hb]
  · intro d render ls c i k l hl hb
    refine ⟨?_, seqCursor_advance d c i k, seqCursor_zero d c i⟩
    rw [wlcBatch_eq]
    rw [zipWith_range_getElem? ls _ k l hl]
    rw [pyReplaceAll_blank
      (show CiscoWlcLogTuner.DATETIME_STUB.data = '<' :: "DATETIME_STUB>".data from rfl)
      (by decide) l (render (seqCursor d c i k)) hb]
  · intro d render ls c i k l hl hb
    rw [iosBatch_eq]
    rw [zipWith_range_getElem? ls _ k l hl]

theorem claim_C2_witness :
    LogTuner.stub_ip_addresses " " = " " ∧
    LogTuner.replace_ip_addresses_stub 9 9 9 9 " " = " " ∧
    (igkBatch (fun _ => 3) (fun n => toString n) [" "] 7 0)[0]? =
      some (" ", igkCursor (fun _ => 3) [" "] 7 0 0) ∧
    (iosBatch (fun _ => 3) (fun n => toString n) [" "] 7 0)[0]? =
      some (toString (seqCursor (fun _ => 3) 7 0 0) ++ " ", seqCursor (fun _ => 3) 7 0 0) := by
  refine ⟨?_, ?_, ?_, ?_⟩
  · exact ((claim_C2_amended_blank_line_handling.1 " " (by decide))).2.2.2.1
  · exact (claim_C2_amended_blank_line_handling.2.1 " " 9 9 9 9 0 0 [] 0 0 0 (by decide)).1
  · exact (claim_C2_amended_blank_line_handling.2.2.1 (fun _ => 3) (fun n => toString n) [" "]
      7 0 0 " " (by decide) (by decide)).1
  · exact claim_C2_amended_blank_line_handling.2.2.2.2 (fun _ => 3) (fun n => toString n) [" "]
      7 0 0 " " (by decide) (by decide)

set_option maxHeartbeats 1000000 in
set_option maxRecDepth 8000 in
/-- C3 counterexample: a line with 11 occurrences of one dotted-quad literal
has all 11 replaced by the stub step, not exactly 10: the per-match loop of
`_stub_ip_addresses` calls `replace(ip, stub, 10)` once per `findall` match,
so the second iteration replaces the occurrence the first one's cap left. -/
theorem claim_C3_counterexample :
    occCount
        "1.1.1.1 1.1.1.1 1.1.1.1 1.1.1.1 1.1.1.1 1.1.1.1 1.1.1.1 1.1.1.1 1.1.1.1 1.1.1.1 1.1.1.1"
        "1.1.1.1" = 11 ∧
    LogTuner.stub_ip_addresses
        "1.1.1.1 1.1.1.1 1.1.1.1 1.1.1.1 1.1.1.1 1.1.1.1 1.1.1.1 1.1.1.1 1.1.1.1 1.1.1.1 1.1.1.1" =
      "<IP_ADDRESS_STUB> <IP_ADDRESS_STUB> <IP_ADDRESS_STUB> <IP_ADDRESS_STUB> <IP_ADDRESS_STUB> <IP_ADDRESS_STUB> <IP_ADDRESS_STUB> <IP_ADDRESS_STUB> <IP_ADDRESS_STUB> <IP_ADDRESS_STUB> <IP_ADDRESS_STUB>" ∧
    occCount
        "<IP_ADDRESS_STUB> <IP_ADDRESS_STUB> <IP_ADDRESS_STUB> <IP_ADDRESS_STUB> <IP_ADDRESS_STUB> <IP_ADDRESS_STUB> <IP_ADDRESS_STUB> <IP_ADDRESS_STUB> <IP_ADDRESS_STUB> <IP_ADDRESS_STUB> <IP_ADDRESS_STUB>"
        "1.1.1.1" = 0 := by
  exact ⟨by decide, by decide, by decide⟩

set_option maxHeartbeats 1000000 in
set_option maxRecDepth 8000 in
/-- C3 (amended): the cap is not symmetric.  The refill step does replace
exactly `min 10 n` of the `n` placeholder occurrences (first conjunct, via
the instrumented scan); but the stub step loops over every regex match, so a
line whose more-than-10 occurrences are of one literal value gets all of
them replaced — both for the IP stubber and for the CiscoWlc MAC stubber
(second and third conjuncts, the 11-occurrence lines of the
counterexample). -/
theorem claim_C3_amended_cap_asymmetry :
    (∀ (r0 r1 r2 r3 : Nat) (line : String),
      (LogTuner.replace_ip_addresses_stub r0 r1 r2 r3 line).data =
        (pyReplaceNCore LogTuner.IP_ADDRESS_STUB.data
          (String.intercalate "." [toString r0, toString r1, toString r2, toString r3]).data
          line.data.length line.data 10).1 ∧
      (pyReplaceNCore LogTuner.IP_ADDRESS_STUB.data
        (String.intercalate "." [toString r0, toString r1, toString r2, toString r3]).data
        line.data.length line.data 10).2 =
        min 10 (occCount line LogTuner.IP_ADDRESS_STUB)) ∧
    LogTuner.stub_ip_addresses
        "1.1.1.1 1.1.1.1 1.1.1.1 1.1.1.1 1.1.1.1 1.1.1.1 1.1.1.1 1.1.1.1 1.1.1.1 1.1.1.1 1.1.1.1" =
      "<IP_ADDRESS_STUB> <IP_ADDRESS_STUB> <IP_ADDRESS_STUB> <IP_ADDRESS_STUB> <IP_ADDRESS_STUB> <IP_ADDRESS_STUB> <IP_ADDRESS_STUB> <IP_ADDRESS_STUB> <IP_ADDRESS_STUB> <IP_ADDRESS_STUB> <IP_ADDRESS_STUB>" ∧
    CiscoWlcLogTuner.stub_miscellaneous
        "aa:bb:cc:dd:ee:ff aa:bb:cc:dd:ee:ff aa:bb:cc:dd:ee:ff aa:bb:cc:dd:ee:ff aa:bb:cc:dd:ee:ff aa:bb:cc:dd:ee:ff aa:bb:cc:dd:ee:ff aa:bb:cc:dd:ee:ff aa:bb:cc:dd:ee:ff aa:bb:cc:dd:ee:ff aa:bb:cc:dd:ee:ff" =
      "<MAC> <MAC> <MAC> <MAC> <MAC> <MAC> <MAC> <MAC> <MAC> <MAC> <MAC>" := by
  refine ⟨?_, by decide, by decide⟩
  intro r0 r1 r2 r3 line
  constructor
  · simp only [LogTuner.replace_ip_addresses_stub, pyReplace, pyReplaceNCore_fst]
  · rw [pyReplaceNCore_snd]
    rfl

/-- C4 counterexample: `CiscoIosLogTuner._stub_date_and_time` maps the
whitespace-only line `" "` to `""` (it unconditionally slices off the first
15 characters of any non-empty line), so not every stubber passes a
whitespace-only line through unchanged. -/
theorem claim_C4_counterexample :
    CiscoIosLogTuner.stub_date_and_time " " = "" ∧ (" " : String) ≠ "" := by
  exact ⟨by decide, by decide⟩

/-- C4 (amended): every pattern-based stubber (IP, Igk last-seconds, Wlc
datetime, Wlc MAC, Ios VLAN/group) is the identity on a line where its
pattern finds nothing, and in particular on every blank line; the base
stubbers are the identity everywhere; the empty line passes through the
fixed-prefix datetime stubbers too — but a non-empty whitespace-only line is
truncated (not preserved) by the Igk/Ios fixed-prefix datetime stubbers, as
the counterexample shows. -/
theorem claim_C4_amended_stubber_identity :
    (∀ line : String, reFindall matchIpLen line = [] →
      LogTuner.stub_ip_addresses line = line) ∧
    (∀ line : String, reFindall matchLastSecondsLen line = [] →
      IgkExtremeLogTuner.stub_miscellaneous line = line) ∧
    (∀ line : String, reFindall matchTimeLen line = [] →
      CiscoWlcLogTuner.stub_date_and_time line = line) ∧
    (∀ line : String, reFindall matchMacLen line = [] →
      CiscoWlcLogTuner.stub_miscellaneous line = line) ∧
    (∀ line : String, reFindall matchVlanLen line = [] → reFindall matchGrpLen line = [] →
      CiscoIosLogTuner.stub_miscellaneous line = line) ∧
    (∀ line : String, LogTuner.stub_date_and_time line = line ∧
      LogTuner.stub_miscellaneous line = line) ∧
    (∀ line : String, pyBlank line = true →
      LogTuner.stub_ip_addresses line = line ∧
      IgkExtremeLogTuner.stub_miscellaneous line = line ∧
      CiscoWlcLogTuner.stub_date_and_time line = line ∧
      CiscoWlcLogTuner.stub_miscellaneous line = line ∧
      CiscoIosLogTuner.stub_miscellaneous line = line) ∧
    IgkExtremeLogTuner.stub_date_and_time "" = "" ∧
    CiscoIosLogTuner.stub_date_and_time "" = "" := by
  refine ⟨?_, ?_, ?_, ?_, ?_, ?_, ?_, rfl, rfl⟩
  · intro line h
    unfold LogTuner.stub_ip_addresses
    rw [h]
    rfl
  · intro line h
    unfold IgkExtremeLogTuner.stub_miscellaneous
    rw [h]
    rfl
  · intro line h
    unfold CiscoWlcLogTuner.stub_date_and_time
    rw [h]
    rfl
  · intro line h
    unfold CiscoWlcLogTuner.stub_miscellaneous
    rw [h]
    rfl
  · intro line h1 h2
    simp only [CiscoIosLogTuner.stub_miscellaneous]
    rw [h1]
    simp only [List.foldl_nil]
    rw [h2]
    simp only [List.foldl_nil]
  · intro line
    exact ⟨rfl, rfl⟩
  · intro line hs
    refine ⟨?_, ?_, ?_, ?_, ?_⟩
    · unfold LogTuner.stub_ip_addresses
      rw [reFindall_blank _ (fun t ht => matchIpLen_space ht) line hs]
      rfl
    · unfold IgkExtremeLogTuner.stub_miscellaneous
      rw [reFindall_blank _ (fun t ht => matchLastSecondsLen_space ht) line hs]
      rfl
    · unfold CiscoWlcLogTuner.stub_date_and_time
      rw [reFindall_blank _ (fun t ht => matchTimeLen_space ht) line hs]
      rfl
    · unfold CiscoWlcLogTuner.stub_miscellaneous
      rw [reFindall_blank _ (fun t ht => matchMacLen_space ht) line hs]
      rfl
    · simp only [CiscoIosLogTuner.stub_miscellaneous]
      rw [reFindall_blank _ (fun t ht => matchVlanLen_space ht) line hs]
      simp only [List.foldl_nil]
      rw [reFindall_blank _ (fun t ht => matchGrpLen_space ht) line hs]
      simp only [List.foldl_nil]

theorem claim_C4_witness :
    LogTuner.stub_ip_addresses "no addresses here" = "no addresses here" ∧
    CiscoIosLogTuner.stub_miscellaneous "hello" = "hello" ∧
    CiscoWlcLogTuner.stub_date_and_time " \t" = " \t" :=
  ⟨claim_C4_amended_stubber_identity.1 "no addresses here" (by decide),
   claim_C4_amended_stubber_identity.2.2.2.2.1 "hello" (by decide) (by decide),
   (claim_C4_amended_stubber_identity.2.2.2.2.2.2.1 " \t" (by decide)).2.2.1⟩

set_option maxHeartbeats 1000000 in
set_option maxRecDepth 8000 in
/-- C5 counterexample: under the VLAN/group profile, extracting the sample
line does NOT produce the claimed template: slicing off exactly 15
characters keeps the space before `CET:`, and the `Grp 92` match (including
the literal `Grp `) is wholly replaced by `<grp>`. -/
theorem claim_C5_counterexample :
    gather_common_log_lines iosProfile
        ["Apr 14 14:09:06 CET: Vlan3649 Grp 92 state Speak -> Standby\n"] ≠
      ["CET: <vlan> Grp <grp> state Speak -> Standby\n"] := by
  decide

set_option maxHeartbeats 1000000 in
set_option maxRecDepth 8000 in
/-- C5 (amended): extracting
`"Apr 14 14:09:06 CET: Vlan3649 Grp 92 state Speak -> Standby\n"` under
CiscoIosLogTuner (datetime stub, then IP stub, then miscellaneous stub)
produces exactly `" CET: <vlan> <grp> state Speak -> Standby\n"`: the first
15 characters are removed (keeping the following space), `Vlan3649` becomes
`<vlan>`, and `Grp 92` becomes `<grp>` (absorbing the literal `Grp `, which
the refill step re-emits). -/
theorem claim_C5_amended_extraction :
    gather_common_log_lines iosProfile
        ["Apr 14 14:09:06 CET: Vlan3649 Grp 92 state Speak -> Standby\n"] =
      [" CET: <vlan> <grp> state Speak -> Standby\n"] := by
  decide

/-- C6: the size estimator returns `size_mb * 1024 * 1024` divided by
`average_line_size = sample_file_size / line_count` (Python 2 floor
divisions), and it raises a division error exactly when the line count is
zero or the average line size is zero; in the error case no result is
produced. -/
theorem claim_C6_size_estimator (log_lines : List String) (sample_file_size size_mb : Nat) :
    ((∃ e, LogTuner.calculate_required_number_of_lines log_lines sample_file_size size_mb =
        .error e) ↔
      (log_lines.length = 0 ∨ sample_file_size / log_lines.length = 0)) ∧
    (∀ n, LogTuner.calculate_required_number_of_lines log_lines sample_file_size size_mb =
        .ok n → n = size_mb * 1024 * 1024 / (sample_file_size / log_lines.length)) :=
  calculate_spec log_lines sample_file_size size_mb

theorem claim_C6_witness :
    (∃ e, LogTuner.calculate_required_number_of_lines ([] : List String) 5 1 = .error e) ∧
    (524288 : Nat) = 1 * 1024 * 1024 / (5 / (["x\n", "y\n"] : List String).length) :=
  ⟨(claim_C6_size_estimator [] 5 1).1.mpr (Or.inl rfl),
   (claim_C6_size_estimator ["x\n", "y\n"] 5 1).2 524288 (by rfl)⟩

/-- C7 counterexample: the code draws ONE VLAN number per line, so on a line
with two VLAN placeholders both occurrences carry the same number, while the
claimed per-occurrence independent draws (realized by the spec-worded
definition with draws 1, 2) would produce two different numbers. -/
theorem claim_C7_counterexample :
    CiscoIosLogTuner.replace_miscellaneous_stub 1 7 "<vlan> <vlan>" = "Vlan1 Vlan1" ∧
    replace_miscellaneous_per_occurrence (fun k => k + 1) (fun _ => 7) "<vlan> <vlan>" =
      "Vlan1 Vlan2" ∧
    ("Vlan1 Vlan1" : String) ≠ "Vlan1 Vlan2" := by
  exact ⟨by decide, by decide, by decide⟩

/-- C7 (amended): the VLAN/group refill draws one random VLAN number in
[1, 5000] and one random group number in [1, 300] per line (not per
occurrence) and replaces every occurrence of each placeholder with that
line's single draw: the code coincides with the per-occurrence model exactly
when the draw streams are constant. -/
theorem claim_C7_amended_per_line_draws (rv rg : Nat) (line : String) :
    CiscoIosLogTuner.replace_miscellaneous_stub rv rg line =
      replace_miscellaneous_per_occurrence (fun _ => rv) (fun _ => rg) line := by
  simp only [CiscoIosLogTuner.replace_miscellaneous_stub, replace_miscellaneous_per_occurrence,
    streamReplaceAll, pyReplaceAll, streamReplaceCore_const]

/-- C8: the IP refill builds one address from the four `randint(0, 255)`
draws joined with `.`, and replaces up to 10 placeholder occurrences with
that single value: it equals the occurrence-indexed replacement with the
constant stream (so every replaced occurrence carries the same address), and
the number of replacements it performs is exactly `min 10 n` for `n`
placeholder occurrences. -/
theorem claim_C8_ip_refill (r0 r1 r2 r3 : Nat) (line : String)
    (_h0 : r0 ≤ 255) (_h1 : r1 ≤ 255) (_h2 : r2 ≤ 255) (_h3 : r3 ≤ 255) :
    LogTuner.replace_ip_addresses_stub r0 r1 r2 r3 line =
      streamReplace line LogTuner.IP_ADDRESS_STUB
        (fun _ => String.intercalate "." [toString r0, toString r1, toString r2, toString r3])
        10 ∧
    (pyReplaceNCore LogTuner.IP_ADDRESS_STUB.data
        (String.intercalate "." [toString r0, toString r1, toString r2, toString r3]).data
        line.data.length line.data 10).2 =
      min 10 (occCount line LogTuner.IP_ADDRESS_STUB) := by
  constructor
  · simp only [LogTuner.replace_ip_addresses_stub, pyReplace, streamReplace,
      streamReplaceCore_const]
  · rw [pyReplaceNCore_snd]
    rfl

theorem claim_C8_witness :
    LogTuner.replace_ip_addresses_stub 10 0 0 1 "a <IP_ADDRESS_STUB> b <IP_ADDRESS_STUB>" =
      streamReplace "a <IP_ADDRESS_STUB> b <IP_ADDRESS_STUB>" LogTuner.IP_ADDRESS_STUB
        (fun _ => String.intercalate "." [toString 10, toString 0, toString 0, toString 1])
        10 ∧
    (pyReplaceNCore LogTuner.IP_ADDRESS_STUB.data
        (String.intercalate "." [toString 10, toString 0, toString 0, toString 1]).data
        ("a <IP_ADDRESS_STUB> b <IP_ADDRESS_STUB>" : String).data.length
        ("a <IP_ADDRESS_STUB> b <IP_ADDRESS_STUB>" : String).data 10).2 =
      min 10 (occCount "a <IP_ADDRESS_STUB> b <IP_ADDRESS_STUB>" LogTuner.IP_ADDRESS_STUB) :=
  claim_C8_ip_refill 10 0 0 1 "a <IP_ADDRESS_STUB> b <IP_ADDRESS_STUB>"
    (by decide) (by decide) (by decide) (by decide)

/-- C9: the stored sample lines and the Template Pool are never mutated: for
every profile, run configuration and randomness, `generate_log` (whether it
succeeds or raises) returns the instance state it was given, so on a
freshly constructed instance both attributes still equal their values at the
end of construction. -/
theorem claim_C9_pool_immutable (p : Profile) (log_lines : List String)
    (size_mb sample_file_size : Nat) (choiceS ipS : Nat → Nat) (miscS : Nat → Nat → Nat)
    (dtS : Nat → Nat) (render : Nat → String) :
    (∀ st : LogTunerState,
      (generate_log p st size_mb sample_file_size choiceS ipS miscS dtS render).1 = st) ∧
    (generate_log p (LogTuner.init p log_lines) size_mb sample_file_size choiceS ipS miscS dtS
        render).1.log_lines = log_lines ∧
    (generate_log p (LogTuner.init p log_lines) size_mb sample_file_size choiceS ipS miscS dtS
        render).1.common_log_lines = gather_common_log_lines p log_lines := by
  refine ⟨fun st => generate_log_fst p st size_mb sample_file_size choiceS ipS miscS dtS render,
    ?_, ?_⟩
  · rw [generate_log_fst]
    rfl
  · rw [generate_log_fst]
    rfl

/-- C10: every profile in the `classes` registry overrides
`_replace_miscellaneous_stub` with a total (always succeeding) refill, while
the base default always raises the `NameError` for the undefined name
`lines`; hence for a run using a registered profile the base default is
never executed, and the only error such a run can raise is the size
estimator's division error — never the `NameError`. -/
theorem claim_C10_base_misc_unreachable (g : Nat → Nat) (name : String) (p : Profile)
    (hmem : (name, p) ∈ classes g) :
    (∀ (r : Nat → Nat) (line : String), (p.replace_miscellaneous_stub r line).isOk = true) ∧
    (∀ (r : Nat → Nat) (line : String),
      LogTuner.replace_miscellaneous_stub r line = .error nameErrMsg) ∧
    (∀ (st : LogTunerState) (size_mb sample_file_size : Nat) (choiceS ipS : Nat → Nat)
        (miscS : Nat → Nat → Nat) (dtS : Nat → Nat) (render : Nat → String) (e : String),
      (generate_log p st size_mb sample_file_size choiceS ipS miscS dtS render).2 = .error e →
      e = zeroDivMsg) := by
  have hok : ∀ (r : Nat → Nat) (line : String),
      (p.replace_miscellaneous_stub r line).isOk = true := by
    simp only [classes, List.mem_cons, List.not_mem_nil, or_false, Prod.mk.injEq] at hmem
    rcases hmem with ⟨-, rfl⟩ | ⟨-, rfl⟩ | ⟨-, rfl⟩ <;> intro r line <;> rfl
  refine ⟨hok, fun r line => rfl, ?_⟩
  intro st size_mb sample_file_size choiceS ipS miscS dtS render e h
  exact generate_log_error_is_zero_div p st size_mb sample_file_size choiceS ipS miscS dtS
    render hok e h

theorem claim_C10_witness :
    (igkProfile.replace_miscellaneous_stub (fun _ => 1) "x").isOk = true ∧
    LogTuner.replace_miscellaneous_stub (fun _ => 1) "x" = .error nameErrMsg :=
  ⟨(claim_C10_base_misc_unreachable (fun _ => 0) "IgkExtremeLogTuner" igkProfile
      (List.mem_cons_of_mem _ (List.mem_cons_of_mem _ (List.mem_cons_self _ _)))).1
      (fun _ => 1) "x",
   (claim_C10_base_misc_unreachable (fun _ => 0) "IgkExtremeLogTuner" igkProfile
      (List.mem_cons_of_mem _ (List.mem_cons_of_mem _ (List.mem_cons_self _ _)))).2.1
      (fun _ => 1) "x"⟩
